import Mathlib

/-!
Shallow embedding of the HarmonyDesk network core (Rust) and proofs about it.

Sources embedded:
- src/ohos/entry/ohos/rust/src/protocol.rs : MessageType, Packet, Handshake,
  IdServerClient.request_connection (response handling), SecureHandshake.
- src/ohos/entry/ohos/rust/src/video.rs : DecodedFrame.to_rgba, FrameBuffer.
- src/ohos/entry/ohos/rust/src/core.rs : CoreManager.connect.
- src/harmonyos/entry/ohos/rust/src/rustdesk/mod.rs : RustDeskConnection.connect
  and RustDeskVideoStream.start.

Bytes are modelled as Nat values below 256; machine integers wrap with an
explicit mod where the Rust arithmetic is fixed-width. Network, time and
logging are abstracted: each receive window is a parameter that is either
none (the timeout elapsed with no datagram), some (error e) (an IO error),
or some (ok bytes) (a datagram arrived in time). Rust panics (out-of-bounds
slice indexing, Vec.remove on an empty vector) are modelled as none in an
Option-valued result.
-/

deriving instance DecidableEq for Except

/-! ## Byte-level helpers (bytes crate: put_u16, put_u32, get_u16, get_u32) -/

/-- Big-endian encoding of the low 16 bits of a value, as put_u16 writes it. -/
def u16BE (n : Nat) : List Nat :=
  [n / 256 % 256, n % 256]

/-- Big-endian encoding of the low 32 bits of a value, as put_u32 writes it. -/
def u32BE (n : Nat) : List Nat :=
  [n / 2 ^ 24 % 256, n / 2 ^ 16 % 256, n / 2 ^ 8 % 256, n % 256]

/-- get_u16 at offset 0 of a byte string. -/
def readU16 (data : List Nat) : Nat :=
  data.getD 0 0 * 256 + data.getD 1 0

/-- get_u32 at offset 2 of a byte string, where deserialize reads the
payload length. -/
def readU32at2 (data : List Nat) : Nat :=
  data.getD 2 0 * 2 ^ 24 + data.getD 3 0 * 2 ^ 16 + data.getD 4 0 * 2 ^ 8 +
    data.getD 5 0

/-! ## protocol.rs : ProtocolError, MessageType, Packet -/

/-- ProtocolError from protocol.rs. Io carries the display text of the
underlying io error. -/
inductive ProtocolError where
  | Io : String → ProtocolError
  | HandshakeFailed : String → ProtocolError
  | Timeout : ProtocolError
  | InvalidPacket : ProtocolError
  | EncryptionError : ProtocolError
  | PeerNotFound : ProtocolError
deriving DecidableEq, Repr

/-- Display text of a ProtocolError, following the thiserror attributes in
protocol.rs. -/
def ProtocolError.display : ProtocolError → String
  | .Io e => "IO error: " ++ e
  | .HandshakeFailed s => "Handshake failed: " ++ s
  | .Timeout => "Connection timeout"
  | .InvalidPacket => "Invalid packet format"
  | .EncryptionError => "Encryption error"
  | .PeerNotFound => "Peer not found"

/-- The closed message-type enumeration from protocol.rs. -/
inductive MessageType where
  | Handshake
  | HandshakeResponse
  | ConnectionRequest
  | ConnectionResponse
  | Disconnect
  | VideoFrame
  | VideoConfig
  | KeepAlive
  | KeyEvent
  | MouseEvent
  | ClipboardEvent
  | Ping
  | Pong
  | Error
deriving DecidableEq, Repr

/-- The u16 discriminant of each message type (the repr(u16) values). -/
def MessageType.code : MessageType → Nat
  | .Handshake => 0x01
  | .HandshakeResponse => 0x02
  | .ConnectionRequest => 0x03
  | .ConnectionResponse => 0x04
  | .Disconnect => 0x05
  | .VideoFrame => 0x10
  | .VideoConfig => 0x11
  | .KeepAlive => 0x12
  | .KeyEvent => 0x20
  | .MouseEvent => 0x21
  | .ClipboardEvent => 0x22
  | .Ping => 0xF0
  | .Pong => 0xF1
  | .Error => 0xFF

/-- TryFrom of u16 for MessageType: the match in protocol.rs, any other
code is InvalidPacket. -/
def MessageType.tryFrom : Nat → Except ProtocolError MessageType
  | 0x01 => .ok .Handshake
  | 0x02 => .ok .HandshakeResponse
  | 0x03 => .ok .ConnectionRequest
  | 0x04 => .ok .ConnectionResponse
  | 0x05 => .ok .Disconnect
  | 0x10 => .ok .VideoFrame
  | 0x11 => .ok .VideoConfig
  | 0x12 => .ok .KeepAlive
  | 0x20 => .ok .KeyEvent
  | 0x21 => .ok .MouseEvent
  | 0x22 => .ok .ClipboardEvent
  | 0xF0 => .ok .Ping
  | 0xF1 => .ok .Pong
  | 0xFF => .ok .Error
  | _ => .error .InvalidPacket

/-- Debug formatting of a message type, as the Rust derive(Debug) prints it. -/
def MessageType.debugStr : MessageType → String
  | .Handshake => "Handshake"
  | .HandshakeResponse => "HandshakeResponse"
  | .ConnectionRequest => "ConnectionRequest"
  | .ConnectionResponse => "ConnectionResponse"
  | .Disconnect => "Disconnect"
  | .VideoFrame => "VideoFrame"
  | .VideoConfig => "VideoConfig"
  | .KeepAlive => "KeepAlive"
  | .KeyEvent => "KeyEvent"
  | .MouseEvent => "MouseEvent"
  | .ClipboardEvent => "ClipboardEvent"
  | .Ping => "Ping"
  | .Pong => "Pong"
  | .Error => "Error"

/-- A protocol packet: message type and payload bytes. -/
structure Packet where
  msg_type : MessageType
  payload : List Nat
deriving DecidableEq, Repr

/-- Header size constant from protocol.rs. -/
def Packet.HEADER_SIZE : Nat := 6

/-- Packet.serialize: put_u16 of the type code, put_u32 of the payload
length (as u32, so modulo 2^32), then the payload verbatim. Total, as in
the source, which returns a plain Vec with no failure path. -/
def Packet.serialize (p : Packet) : List Nat :=
  u16BE p.msg_type.code ++ u32BE p.payload.length ++ p.payload

/-- Packet.deserialize: reject fewer than 6 bytes, read the u16 type code
and map it through MessageType.tryFrom, read the u32 declared length,
reject when fewer than HEADER_SIZE + len bytes were provided, else take
the payload slice. -/
def Packet.deserialize (data : List Nat) : Except ProtocolError Packet :=
  if data.length < Packet.HEADER_SIZE then .error .InvalidPacket
  else
    match MessageType.tryFrom (readU16 data) with
    | .error e => .error e
    | .ok mt =>
      let len := readU32at2 data
      if data.length < Packet.HEADER_SIZE + len then .error .InvalidPacket
      else .ok ⟨mt, (data.drop Packet.HEADER_SIZE).take len⟩

/-! ## SHA-256 (the sha2 crate function used by SecureHandshake), FIPS 180-4,
on byte lists, with 32-bit words as Nat values reduced mod 2^32 -/

/-- Big-endian encoding of the low 64 bits of a value. -/
def u64BE (n : Nat) : List Nat :=
  [n / 2 ^ 56 % 256, n / 2 ^ 48 % 256, n / 2 ^ 40 % 256, n / 2 ^ 32 % 256,
   n / 2 ^ 24 % 256, n / 2 ^ 16 % 256, n / 2 ^ 8 % 256, n % 256]

/-- Right rotation of a 32-bit word. -/
def rotr32 (x n : Nat) : Nat :=
  ((x >>> n) ||| (x <<< (32 - n))) % 2 ^ 32

/-- SHA-256 big sigma 0. -/
def bigSigma0 (x : Nat) : Nat := rotr32 x 2 ^^^ rotr32 x 13 ^^^ rotr32 x 22

/-- SHA-256 big sigma 1. -/
def bigSigma1 (x : Nat) : Nat := rotr32 x 6 ^^^ rotr32 x 11 ^^^ rotr32 x 25

/-- SHA-256 small sigma 0. -/
def smallSigma0 (x : Nat) : Nat := rotr32 x 7 ^^^ rotr32 x 18 ^^^ (x >>> 3)

/-- SHA-256 small sigma 1. -/
def smallSigma1 (x : Nat) : Nat := rotr32 x 17 ^^^ rotr32 x 19 ^^^ (x >>> 10)

/-- SHA-256 choice function. -/
def chooseFn (x y z : Nat) : Nat := (x &&& y) ^^^ ((x ^^^ (2 ^ 32 - 1)) &&& z)

/-- SHA-256 majority function. -/
def majFn (x y z : Nat) : Nat := (x &&& y) ^^^ (x &&& z) ^^^ (y &&& z)

/-- The 64 SHA-256 round constants. -/
def sha256K : List Nat :=
  [1116352408, 1899447441, 3049323471, 3921009573,
   961987163, 1508970993, 2453635748, 2870763221,
   3624381080, 310598401, 607225278, 1426881987,
   1925078388, 2162078206, 2614888103, 3248222580,
   3835390401, 4022224774, 264347078, 604807628,
   770255983, 1249150122, 1555081692, 1996064986,
   2554220882, 2821834349, 2952996808, 3210313671,
   3336571891, 3584528711, 113926993, 338241895,
   666307205, 773529912, 1294757372, 1396182291,
   1695183700, 1986661051, 2177026350, 2456956037,
   2730485921, 2820302411, 3259730800, 3345764771,
   3516065817, 3600352804, 4094571909, 275423344,
   430227734, 506948616, 659060556, 883997877,
   958139571, 1322822218, 1537002063, 1747873779,
   1955562222, 2024104815, 2227730452, 2361852424,
   2428436474, 2756734187, 3204031479, 3329325298]

/-- The eight 32-bit words of the SHA-256 working state. -/
structure Sha2State where
  a : Nat
  b : Nat
  c : Nat
  d : Nat
  e : Nat
  f : Nat
  g : Nat
  hh : Nat
deriving DecidableEq, Repr

/-- The SHA-256 initial hash value. -/
def sha256InitState : Sha2State :=
  ⟨1779033703, 3144134277, 1013904242, 2773480762,
   1359893119, 2600822924, 528734635, 1541459225⟩

/-- Group bytes into big-endian 32-bit words, dropping any remainder. -/
def toWords : List Nat → List Nat
  | b0 :: b1 :: b2 :: b3 :: rest =>
    (b0 * 2 ^ 24 + b1 * 2 ^ 16 + b2 * 2 ^ 8 + b3) :: toWords rest
  | _ => []

/-- Extend a message schedule by n further words. -/
def sha256Extend (ws : List Nat) : Nat → List Nat
  | 0 => ws
  | n + 1 =>
    let prev := sha256Extend ws n
    let w2 := prev.getD (prev.length - 2) 0
    let w7 := prev.getD (prev.length - 7) 0
    let w15 := prev.getD (prev.length - 15) 0
    let w16 := prev.getD (prev.length - 16) 0
    prev ++ [(smallSigma1 w2 + w7 + smallSigma0 w15 + w16) % 2 ^ 32]

/-- One SHA-256 round, consuming one (round constant, schedule word) pair. -/
def sha256Round (s : Sha2State) (kw : Nat × Nat) : Sha2State :=
  let t1 := (s.hh + bigSigma1 s.e + chooseFn s.e s.f s.g + kw.1 + kw.2) % 2 ^ 32
  let t2 := (bigSigma0 s.a + majFn s.a s.b s.c) % 2 ^ 32
  { a := (t1 + t2) % 2 ^ 32, b := s.a, c := s.b, d := s.c,
    e := (s.d + t1) % 2 ^ 32, f := s.e, g := s.f, hh := s.g }

/-- Compress one 64-byte block into the hash state. -/
def sha256Compress (s : Sha2State) (block : List Nat) : Sha2State :=
  let ws := sha256Extend (toWords block) 48
  let t := (sha256K.zip ws).foldl sha256Round s
  { a := (s.a + t.a) % 2 ^ 32, b := (s.b + t.b) % 2 ^ 32,
    c := (s.c + t.c) % 2 ^ 32, d := (s.d + t.d) % 2 ^ 32,
    e := (s.e + t.e) % 2 ^ 32, f := (s.f + t.f) % 2 ^ 32,
    g := (s.g + t.g) % 2 ^ 32, hh := (s.hh + t.hh) % 2 ^ 32 }

/-- Split a byte list into chunks of 64, the accumulator holding the
current chunk reversed. -/
def chunk64loop : List Nat → List Nat → List (List Nat)
  | acc, [] => if acc.isEmpty then [] else [acc.reverse]
  | acc, b :: rest =>
    if acc.length = 63 then (acc.reverse ++ [b]) :: chunk64loop [] rest
    else chunk64loop (b :: acc) rest

/-- SHA-256 padding: append 0x80, zeros to 56 mod 64, and the bit length
as a big-endian 64-bit value. -/
def sha256Pad (msg : List Nat) : List Nat :=
  msg ++ [0x80] ++ List.replicate ((119 - msg.length % 64) % 64) 0 ++
    u64BE (8 * msg.length)

/-- SHA-256 of a byte list: pad, compress each 64-byte block, and emit the
eight state words big-endian. -/
def sha256 (msg : List Nat) : List Nat :=
  let fin := (chunk64loop [] (sha256Pad msg)).foldl sha256Compress sha256InitState
  u32BE fin.a ++ u32BE fin.b ++ u32BE fin.c ++ u32BE fin.d ++
    u32BE fin.e ++ u32BE fin.f ++ u32BE fin.g ++ u32BE fin.hh

/-! ## protocol.rs : SecureHandshake.perform_handshake

The socket, the peer address and the 10-second response window are
abstracted: recvEvent is none when the window elapses with no datagram,
some (error e) when recv fails with an IO error whose display is e, and
some (ok bytes) when a datagram arrives in time. -/

/-- The constant suffix b"RustDesk" hashed after the secret. -/
def rustDeskTag : List Nat := [0x52, 0x75, 0x73, 0x74, 0x44, 0x65, 0x73, 0x6B]

/-- What one perform_handshake call produces: the datagram it sent, the
returned result, and the shared_secret field afterwards (None before the
call, per SecureHandshake.new). -/
structure HsOut where
  sent : List Nat
  result : Except ProtocolError Unit
  shared_secret : Option (List Nat)
deriving DecidableEq, Repr

/-- SecureHandshake.perform_handshake: hash the password bytes followed by
b"RustDesk" with SHA-256, send a Handshake packet carrying the u16 hash
length then the hash, and await a response. Success exactly on a
HandshakeResponse whose payload is non-empty with first byte 0, which
stores the hash as the shared secret. -/
def perform_handshake (password : List Nat)
    (recvEvent : Option (Except String (List Nat))) : HsOut :=
  let password_hash := sha256 (password ++ rustDeskTag)
  let payload := u16BE password_hash.length ++ password_hash
  let sent := Packet.serialize ⟨.Handshake, payload⟩
  let rs : Except ProtocolError Unit × Option (List Nat) :=
    match recvEvent with
    | none => (.error .Timeout, none)
    | some (.error e) => (.error (.Io e), none)
    | some (.ok bytes) =>
      match Packet.deserialize bytes with
      | .error e => (.error e, none)
      | .ok resp =>
        if resp.msg_type = .HandshakeResponse then
          match resp.payload with
          | [] => (.error (.HandshakeFailed "Authentication failed"), none)
          | b :: _ =>
            if b = 0 then (.ok (), some password_hash)
            else (.error (.HandshakeFailed "Authentication failed"), none)
        else (.error (.HandshakeFailed "Invalid handshake response"), none)
  ⟨sent, rs.1, rs.2⟩

/-! ## protocol.rs : IdServerClient.request_connection, response handling

Models lines 286-348: the 10-second receive window, packet parsing, the
response-type check, and the unguarded status-byte read. The Rust
BytesMut.get_u8 on an empty buffer panics; the panic is modelled as none. -/

/-- The result of the receive half of request_connection: none models the
out-of-bounds status-byte read on an empty ConnectionResponse payload,
some r is the typed result. peerAddrOutcome abstracts socket.peer_addr. -/
def requestConnectionRecv (recvEvent : Option (Except String (List Nat)))
    (peerAddrOutcome : Except String Nat) :
    Option (Except ProtocolError Nat) :=
  match recvEvent with
  | none => some (.error .Timeout)
  | some (.error e) => some (.error (.Io e))
  | some (.ok bytes) =>
    match Packet.deserialize bytes with
    | .error e =>
      some (.error (.HandshakeFailed ("Failed to parse response: " ++ e.display)))
    | .ok resp =>
      if resp.msg_type ≠ .ConnectionResponse then
        some (.error (.HandshakeFailed
          ("Unexpected response type: " ++ resp.msg_type.debugStr)))
      else
        match resp.payload with
        | [] => none
        | status :: _ =>
          if status ≠ 0 then some (.error .PeerNotFound)
          else
            match peerAddrOutcome with
            | .error e => some (.error (.Io e))
            | .ok addr => some (.ok addr)

/-! ## rustdesk/mod.rs : ConnectionState and RustDeskConnection.connect

Each network phase is abstracted as an outcome parameter; sockets and
addresses are tags (Nat). The run records the surfaced result, the final
connection state, and the ordered phase events, so that which phase ran,
and with which socket, is observable. -/

/-- ConnectionState from rustdesk/mod.rs. -/
inductive ConnectionState where
  | Disconnected
  | Connecting
  | Connected
  | Failed
deriving DecidableEq, Repr

/-- Environment outcomes for each fallible step of connect. -/
structure PhaseOutcomes where
  dirConnect : Except String Unit
  peerLookup : Except String Nat
  bindLocal : Except String Nat
  localAddr : Nat → Except String Nat
  punch : Nat → Except String Unit
  handshake : Nat → Nat → Except String Unit
  tryClone : Nat → Except String Nat

/-- Observable phase events of one connect run. -/
inductive ConnEvent where
  | dirConnect
  | peerLookup
  | bind
  | localAddr (sock : Nat)
  | punch (peer : Nat) (succeeded : Bool)
  | handshake (sock : Nat) (peer : Nat)
  | tryClone (sock : Nat)
deriving DecidableEq, Repr

/-- The outcome of one RustDeskConnection.connect run. -/
structure ConnRun where
  result : Except String Unit
  state : ConnectionState
  events : List ConnEvent
deriving DecidableEq, Repr

/-- RustDeskConnection.connect: set the state to Connecting, then run the
five steps of rustdesk/mod.rs lines 83-183. Failures of the directory
connect, the peer lookup, the local bind and the handshake set the state
to Failed before returning the error; the local_addr and try_clone
failures return through the question-mark operator without touching the
state; a punch_hole failure only logs a warning and the run continues. -/
def RustDeskConnection.connect (o : PhaseOutcomes) : ConnRun :=
  match o.dirConnect with
  | .error e =>
    ⟨.error ("连接 ID 服务器失败: " ++ e), .Failed, [.dirConnect]⟩
  | .ok () =>
    match o.peerLookup with
    | .error e =>
      ⟨.error ("未找到远程桌面: " ++ e), .Failed, [.dirConnect, .peerLookup]⟩
    | .ok peer =>
      match o.bindLocal with
      | .error e =>
        ⟨.error ("绑定本地端口失败: " ++ e), .Failed,
          [.dirConnect, .peerLookup, .bind]⟩
      | .ok sock =>
        match o.localAddr sock with
        | .error e =>
          ⟨.error ("获取本地地址失败: " ++ e), .Connecting,
            [.dirConnect, .peerLookup, .bind, .localAddr sock]⟩
        | .ok _ =>
          let punchEv := ConnEvent.punch peer (o.punch peer matches .ok _)
          match o.handshake sock peer with
          | .error e =>
            ⟨.error ("握手失败: " ++ e), .Failed,
              [.dirConnect, .peerLookup, .bind, .localAddr sock, punchEv,
               .handshake sock peer]⟩
          | .ok () =>
            match o.tryClone sock with
            | .error e =>
              ⟨.error ("克隆 socket 失败: " ++ e), .Connecting,
                [.dirConnect, .peerLookup, .bind, .localAddr sock, punchEv,
                 .handshake sock peer, .tryClone sock]⟩
            | .ok _ =>
              ⟨.ok (), .Connected,
                [.dirConnect, .peerLookup, .bind, .localAddr sock, punchEv,
                 .handshake sock peer, .tryClone sock]⟩

/-! ## core.rs (ohos) : CoreManager.connect

The two registry maps are modelled as association lists; the connection
value and the stream value carry no data the claims need beyond the
running flag of the stream. RustDeskConnection.connect is abstracted as an
outcome parameter. The rustdesk module of the ohos crate is not in the
sources; RustDeskVideoStream.start follows the harmonyos
rustdesk/mod.rs implementation, which sets is_running and returns Ok. -/

/-- SessionInfo from core.rs. -/
structure SessionInfo where
  id : String
  connected : Bool
  screen_width : Nat
  screen_height : Nat
deriving DecidableEq, Repr

/-- The two parallel registry maps of CoreManager. -/
structure CoreState where
  connections : List (String × Unit)
  video_streams : List (String × Bool)
deriving DecidableEq, Repr

/-- HashMap.contains_key on an association list. -/
def keyMember (k : String) (m : List (String × α)) : Bool :=
  m.any (fun kv => kv.1 = k)

/-- HashMap.insert on an association list: replace any binding of k. -/
def keyInsert (k : String) (v : α) (m : List (String × α)) :
    List (String × α) :=
  (k, v) :: m.filter (fun kv => kv.1 ≠ k)

/-- RustDeskVideoStream.start (harmonyos rustdesk/mod.rs lines 269-279):
sets the running flag and returns Ok. -/
def RustDeskVideoStream.start (_running : Bool) : Except String Unit × Bool :=
  (.ok (), true)

/-- CoreManager.connect (core.rs lines 79-118): return the session info at
once when desk_id is already registered, otherwise run
RustDeskConnection.connect (abstracted as connectOutcome), insert the
connection, start the video stream, insert it, and return the info. The
Bool output records whether any network work was performed. -/
def CoreManager.connect (st : CoreState) (desk_id : String)
    (connectOutcome : Except String Unit) :
    Except String SessionInfo × CoreState × Bool :=
  if keyMember desk_id st.connections then
    (.ok ⟨desk_id, true, 1920, 1080⟩, st, false)
  else
    match connectOutcome with
    | .error e => (.error e, st, true)
    | .ok () =>
      let st1 : CoreState :=
        { st with connections := keyInsert desk_id () st.connections }
      match RustDeskVideoStream.start false with
      | (.error e, _) => (.error e, st1, true)
      | (.ok (), running) =>
        let st2 : CoreState :=
          { st1 with video_streams := keyInsert desk_id running st1.video_streams }
        (.ok ⟨desk_id, true, 1920, 1080⟩, st2, true)

/-! ## video.rs : DecodedFrame.to_rgba and FrameBuffer

The per-pixel f32 arithmetic of the YUV conversion (scale, round, clamp)
is abstracted as the parameter rgbOf, since every claim here is
independent of the numeric pixel values; the index computations, the
guard, the output layout and the constant alpha byte follow the source
word for word. Indexing a plane out of bounds is a Rust panic, modelled
as none. -/

/-- DecodeError from video.rs. -/
inductive DecodeError where
  | NotInitialized
  | InvalidFrame (msg : String)
  | DecodeFailed (msg : String)
  | BufferOverflow
deriving DecidableEq, Repr

/-- PixelFormat from video.rs. -/
inductive PixelFormat where
  | RGBA
  | RGB
  | YUV420P
deriving DecidableEq, Repr

/-- DecodedFrame from video.rs. -/
structure DecodedFrame where
  width : Nat
  height : Nat
  data : List Nat
  format : PixelFormat
  timestamp : Nat
deriving DecidableEq, Repr

/-- The RGB to RGBA conversion: chunks_exact(3), each chunk extended with
alpha 255, any remainder dropped. -/
def rgbToRgba : List Nat → List Nat
  | r :: g :: b :: rest => r :: g :: b :: 255 :: rgbToRgba rest
  | _ => []

/-- The row-major pixel index list of the two nested loops. -/
def yuvIdxPairs (w h : Nat) : List (Nat × Nat) :=
  (List.range h).flatMap (fun i => (List.range w).map (fun j => (i, j)))

/-- The YUV420P loop body over a pixel index list: look up the Y, U, V
plane bytes at the u32 index expressions of the source, convert, append the
alpha byte 255. A plane lookup out of bounds is the panic case none. -/
def yuvPixels (rgbOf : Nat → Nat → Nat → Nat × Nat × Nat)
    (yP uP vP : List Nat) (w : Nat) : List (Nat × Nat) → Option (List Nat)
  | [] => some []
  | (i, j) :: rest =>
    let y_idx := (i * w % 2 ^ 32 + j) % 2 ^ 32
    let uv_idx := (i / 2 * w % 2 ^ 32 / 2 + j / 2) % 2 ^ 32
    match yP.get? y_idx, uP.get? uv_idx, vP.get? uv_idx with
    | some y, some u, some v =>
      match yuvPixels rgbOf yP uP vP w rest with
      | some out =>
        some ((rgbOf y u v).1 :: (rgbOf y u v).2.1 :: (rgbOf y u v).2.2 ::
          255 :: out)
      | none => none
    | _, _, _ => none

/-- DecodedFrame.yuv420p_to_rgba: plane sizes from the u32 product of the
dimensions, the length guard returning InvalidFrame, the three plane
slices, then the double loop. -/
def DecodedFrame.yuv420p_to_rgba (rgbOf : Nat → Nat → Nat → Nat × Nat × Nat)
    (f : DecodedFrame) : Option (Except DecodeError (List Nat)) :=
  let y_size := f.width * f.height % 2 ^ 32
  let uv_size := y_size / 4
  if f.data.length < y_size + uv_size * 2 then
    some (.error (.InvalidFrame "Invalid YUV420P data"))
  else
    let yP := f.data.take y_size
    let uP := (f.data.drop y_size).take uv_size
    let vP := (f.data.drop (y_size + uv_size)).take uv_size
    match yuvPixels rgbOf yP uP vP f.width (yuvIdxPairs f.width f.height) with
    | some out => some (.ok out)
    | none => none

/-- DecodedFrame.to_rgba: RGBA is returned as is, RGB is widened with
alpha 255, YUV420P goes through yuv420p_to_rgba. -/
def DecodedFrame.to_rgba (rgbOf : Nat → Nat → Nat → Nat × Nat × Nat)
    (f : DecodedFrame) : Option (Except DecodeError (List Nat)) :=
  match f.format with
  | .RGBA => some (.ok f.data)
  | .RGB => some (.ok (rgbToRgba f.data))
  | .YUV420P => f.yuv420p_to_rgba rgbOf

/-- A concrete per-pixel conversion used to instantiate the abstract
rgbOf parameter in closed statements. -/
def rgbSample (y u v : Nat) : Nat × Nat × Nat := (y, u, v)

/-- FrameBuffer from video.rs: a Vec of frames and the size bound. -/
structure FrameBuffer where
  frames : List DecodedFrame
  max_size : Nat
deriving DecidableEq, Repr

/-- FrameBuffer.new: empty vector, given bound. -/
def FrameBuffer.new (max_size : Nat) : FrameBuffer := ⟨[], max_size⟩

/-- FrameBuffer.push: when the vector has reached max_size, remove index 0
first (a panic, none, when the vector is empty, as Vec.remove is out of
bounds there, which happens exactly when max_size is 0), then append. -/
def FrameBuffer.push (fb : FrameBuffer) (frame : DecodedFrame) :
    Option FrameBuffer :=
  if fb.max_size ≤ fb.frames.length then
    match fb.frames with
    | [] => none
    | _ :: rest => some ⟨rest ++ [frame], fb.max_size⟩
  else some ⟨fb.frames ++ [frame], fb.max_size⟩

/-- FrameBuffer.get_latest: last element, not removed. -/
def FrameBuffer.get_latest (fb : FrameBuffer) : Option DecodedFrame :=
  fb.frames.getLast?

/-- A sequence of push calls, propagating the panic case. -/
def FrameBuffer.pushAll (fb : FrameBuffer) :
    List DecodedFrame → Option FrameBuffer
  | [] => some fb
  | f :: rest =>
    match fb.push f with
    | none => none
    | some fb2 => fb2.pushAll rest

/-- A tiny concrete frame for closed statements. -/
def sampleFrame : DecodedFrame := ⟨1, 1, [0, 0, 0, 255], .RGBA, 0⟩

/-- Concrete phase outcomes where only the try_clone step of session
construction fails. -/
def oTryCloneFails : PhaseOutcomes :=
  ⟨.ok (), .ok 7, .ok 3, fun _ => .ok 5, fun _ => .ok (),
   fun _ _ => .ok (), fun _ => .error "boom"⟩

/-- Concrete phase outcomes where only the hole punch fails. -/
def oPunchFails : PhaseOutcomes :=
  ⟨.ok (), .ok 7, .ok 3, fun _ => .ok 5, fun _ => .error "punch",
   fun _ _ => .ok (), fun _ => .ok 4⟩

/-! ## Shared lemmas about the codec -/

theorem serialize_def (t : MessageType) (p : List Nat) :
    Packet.serialize ⟨t, p⟩ =
      t.code / 256 % 256 :: t.code % 256 ::
      p.length / 2 ^ 24 % 256 :: p.length / 2 ^ 16 % 256 ::
      p.length / 2 ^ 8 % 256 :: p.length % 256 :: p := rfl

theorem tryFrom_code (t : MessageType) : MessageType.tryFrom t.code = .ok t := by
  cases t <;> rfl

theorem tryFrom_error_eq (n : Nat) (e : ProtocolError)
    (h : MessageType.tryFrom n = .error e) : e = ProtocolError.InvalidPacket := by
  unfold MessageType.tryFrom at h
  split at h
  all_goals first
  | (injection h with h2; exact h2.symm)
  | injection h

theorem deserialize_serialize (t : MessageType) (p : List Nat)
    (h : p.length < 2 ^ 32) :
    Packet.deserialize (Packet.serialize ⟨t, p⟩) = .ok ⟨t, p⟩ := by
  have hc : t.code < 65536 := by cases t <;> decide
  have h16 : t.code / 256 % 256 * 256 + t.code % 256 = t.code := by omega
  have h32 : p.length / 2 ^ 24 % 256 * 2 ^ 24 + p.length / 2 ^ 16 % 256 * 2 ^ 16 +
      p.length / 2 ^ 8 % 256 * 2 ^ 8 + p.length % 256 = p.length := by omega
  rw [serialize_def]
  unfold Packet.deserialize
  simp only [readU16, readU32at2, List.getD, Packet.HEADER_SIZE, List.length_cons,
    List.get?_cons_succ, List.get?_cons_zero, Option.getD_some]
  rw [h16, h32, tryFrom_code]
  have hlt : ¬ (p.length + 1 + 1 + 1 + 1 + 1 + 1 < 6) := by omega
  have hlt2 : ¬ (p.length + 1 + 1 + 1 + 1 + 1 + 1 < 6 + p.length) := by omega
  simp only [if_neg hlt, if_neg hlt2]
  simp [List.take_length]

/-! ## C1 : codec round trip -/

/-- C1: for every message type t and every payload p with length at most
the 1 MiB maximum payload size, deserializing the serialization of the
packet with type t and payload p succeeds and returns the packet with
message type t and payload p. -/
theorem C1_codec_roundtrip (t : MessageType) (p : List Nat)
    (h : p.length ≤ 1048576) :
    Packet.deserialize (Packet.serialize ⟨t, p⟩) = .ok ⟨t, p⟩ :=
  deserialize_serialize t p (by omega)

/-- Witness for C1 at a concrete packet. -/
theorem C1_codec_roundtrip_witness :
    ([1, 2, 3, 4] : List Nat).length ≤ 1048576 ∧
    Packet.deserialize (Packet.serialize ⟨.Ping, [1, 2, 3, 4]⟩) =
      .ok ⟨.Ping, [1, 2, 3, 4]⟩ :=
  ⟨by decide, C1_codec_roundtrip .Ping [1, 2, 3, 4] (by decide)⟩

/-! ## C2 : there is no maximum-payload check -/

/-- C2 counterexample: a payload of 2^20 + 1 bytes, one past the claimed
1 MiB maximum. Packet.serialize cannot fail (it is total) and returns the
plain header-payload concatenation, and Packet.deserialize accepts the
result, so no maximum is enforced in either direction. -/
theorem C2_counterexample :
    Packet.serialize ⟨.Ping, List.replicate (2 ^ 20 + 1) 0⟩ =
      u16BE (MessageType.code .Ping) ++ u32BE (2 ^ 20 + 1) ++
        List.replicate (2 ^ 20 + 1) 0 ∧
    Packet.deserialize (Packet.serialize ⟨.Ping, List.replicate (2 ^ 20 + 1) 0⟩) =
      .ok ⟨.Ping, List.replicate (2 ^ 20 + 1) 0⟩ := by
  have hlen : (List.replicate (2 ^ 20 + 1) (0 : Nat)).length = 2 ^ 20 + 1 :=
    List.length_replicate _ _
  refine ⟨?_, deserialize_serialize _ _ (by rw [hlen]; decide)⟩
  show u16BE (MessageType.code .Ping) ++
      u32BE (List.replicate (2 ^ 20 + 1) (0 : Nat)).length ++
      List.replicate (2 ^ 20 + 1) 0 = _
  rw [hlen]

/-- C2 amended: serialize never fails and is the trivial concatenation of
the 6-byte header and the payload for every payload whatsoever, with the
length field reduced mod 2^32, and deserialize accepts every declared
payload length, beyond any maximum, whenever that many bytes follow the
header. -/
theorem C2_amended_no_max (t : MessageType) (p : List Nat)
    (h : p.length < 2 ^ 32) :
    Packet.serialize ⟨t, p⟩ = u16BE t.code ++ u32BE p.length ++ p ∧
    Packet.deserialize (Packet.serialize ⟨t, p⟩) = .ok ⟨t, p⟩ :=
  ⟨rfl, deserialize_serialize t p h⟩

/-- Witness for C2 amended at the over-the-maximum payload. -/
theorem C2_amended_no_max_witness :
    (List.replicate (2 ^ 20 + 1) (0 : Nat)).length < 2 ^ 32 ∧
    Packet.deserialize (Packet.serialize ⟨.Ping, List.replicate (2 ^ 20 + 1) 0⟩) =
      .ok ⟨.Ping, List.replicate (2 ^ 20 + 1) 0⟩ :=
  ⟨by rw [List.length_replicate]; decide,
   (C2_amended_no_max .Ping (List.replicate (2 ^ 20 + 1) 0)
     (by rw [List.length_replicate]; decide)).2⟩

/-! ## C6 : deserialize rejection cases -/

/-- C6: Packet.deserialize fails with InvalidPacket on every byte string
shorter than 6 bytes, on every byte string whose declared payload length
exceeds the bytes provided after the 6-byte header, and on every byte
string whose 16-bit type code is outside the closed message-type set. -/
theorem C6_deserialize_rejects (data : List Nat) :
    (data.length < 6 → Packet.deserialize data = .error .InvalidPacket) ∧
    (6 ≤ data.length → data.length < 6 + readU32at2 data →
      Packet.deserialize data = .error .InvalidPacket) ∧
    (6 ≤ data.length → MessageType.tryFrom (readU16 data) = .error .InvalidPacket →
      Packet.deserialize data = .error .InvalidPacket) := by
  unfold Packet.deserialize
  simp only [Packet.HEADER_SIZE]
  refine ⟨?_, ?_, ?_⟩
  · intro h
    rw [if_pos h]
  · intro h6 hlen
    rw [if_neg (by omega)]
    cases htf : MessageType.tryFrom (readU16 data) with
    | error e => rw [tryFrom_error_eq _ _ htf]
    | ok mt => simp only [if_pos hlen]
  · intro h6 htf
    rw [if_neg (by omega), htf]

/-- Witness for C6 at the truncated fuzz vector from the spec: declared
length 4 with only 2 payload bytes present. -/
theorem C6_deserialize_rejects_witness :
    (6 : Nat) ≤ ([0, 1, 0, 0, 0, 4, 1, 2] : List Nat).length ∧
    ([0, 1, 0, 0, 0, 4, 1, 2] : List Nat).length <
      6 + readU32at2 [0, 1, 0, 0, 0, 4, 1, 2] ∧
    Packet.deserialize [0, 1, 0, 0, 0, 4, 1, 2] = .error .InvalidPacket :=
  ⟨by decide, by decide,
    (C6_deserialize_rejects [0, 1, 0, 0, 0, 4, 1, 2]).2.1 (by decide) (by decide)⟩

/-! ## C3 : the authenticated handshake -/

theorem sha256_length (msg : List Nat) : (sha256 msg).length = 32 := by
  simp [sha256, u32BE]

/-- C3: perform_handshake sends a Handshake packet whose payload is the
16-bit value 32 followed by the digest D of the secret bytes followed by
b"RustDesk"; for every HandshakeResponse received within the window it
succeeds and retains D as the shared secret exactly when the first payload
byte is 0, any other first byte yields HandshakeFailed with the text
Authentication failed, and no response within the window yields Timeout. -/
theorem C3_perform_handshake (password : List Nat)
    (recvEvent : Option (Except String (List Nat))) :
    ((perform_handshake password recvEvent).sent =
      Packet.serialize ⟨.Handshake,
        u16BE 32 ++ sha256 (password ++ rustDeskTag)⟩) ∧
    (∀ bytes resp, recvEvent = some (.ok bytes) →
      Packet.deserialize bytes = .ok resp →
      resp.msg_type = .HandshakeResponse →
      (((perform_handshake password recvEvent).result = .ok () ∧
        (perform_handshake password recvEvent).shared_secret =
          some (sha256 (password ++ rustDeskTag))) ↔
        resp.payload.head? = some 0) ∧
      (∀ b, resp.payload.head? = some b → b ≠ 0 →
        (perform_handshake password recvEvent).result =
          .error (.HandshakeFailed "Authentication failed"))) ∧
    (recvEvent = none →
      (perform_handshake password recvEvent).result = .error .Timeout) := by
  refine ⟨?_, ?_, ?_⟩
  · show Packet.serialize ⟨.Handshake,
        u16BE (sha256 (password ++ rustDeskTag)).length ++
          sha256 (password ++ rustDeskTag)⟩ = _
    rw [sha256_length]
  · intro bytes resp hev hde hmt
    subst hev
    cases hpl : resp.payload with
    | nil =>
      simp [perform_handshake, hde, hmt, hpl]
    | cons b rest =>
      by_cases hb : b = 0
      · subst hb
        simp [perform_handshake, hde, hmt, hpl]
      · simp [perform_handshake, hde, hmt, hpl, hb]
  · intro hev
    subst hev
    rfl

/-- Witness for C3: a HandshakeResponse with status byte 0 within the
window makes the handshake succeed. -/
theorem C3_perform_handshake_witness :
    Packet.deserialize (Packet.serialize ⟨.HandshakeResponse, [0]⟩) =
      .ok ⟨.HandshakeResponse, [0]⟩ ∧
    (perform_handshake []
      (some (.ok (Packet.serialize ⟨.HandshakeResponse, [0]⟩)))).result =
      .ok () := by
  refine ⟨by decide, ?_⟩
  have h := ((C3_perform_handshake []
      (some (.ok (Packet.serialize ⟨.HandshakeResponse, [0]⟩)))).2.1
      (Packet.serialize ⟨.HandshakeResponse, [0]⟩) ⟨.HandshakeResponse, [0]⟩
      rfl (by decide) rfl).1
  exact (h.mpr (by decide)).1

/-! ## C9 : the unguarded status byte read in request_connection -/

/-- C9: for every ConnectionResponse received in the window, when the
payload is non-empty the status-byte read is in bounds and the call
returns a typed result: PeerNotFound on a non-zero status, and on status 0
the peer address or the Io error from peer_addr; and the non-emptiness
hypothesis is necessary, because on an empty payload the status-byte
access is out of bounds (a panic, the none case) instead of a typed
error. -/
theorem C9_status_byte_read (bytes : List Nat) (resp : Packet)
    (peerAddrOutcome : Except String Nat)
    (hde : Packet.deserialize bytes = .ok resp)
    (hmt : resp.msg_type = .ConnectionResponse) :
    (∀ b rest, resp.payload = b :: rest → b ≠ 0 →
      requestConnectionRecv (some (.ok bytes)) peerAddrOutcome =
        some (.error .PeerNotFound)) ∧
    (∀ rest a, resp.payload = 0 :: rest → peerAddrOutcome = .ok a →
      requestConnectionRecv (some (.ok bytes)) peerAddrOutcome =
        some (.ok a)) ∧
    (∀ rest e, resp.payload = 0 :: rest → peerAddrOutcome = .error e →
      requestConnectionRecv (some (.ok bytes)) peerAddrOutcome =
        some (.error (.Io e))) ∧
    (resp.payload = [] →
      requestConnectionRecv (some (.ok bytes)) peerAddrOutcome = none) := by
  refine ⟨?_, ?_, ?_, ?_⟩
  · intro b rest hpl hb
    simp [requestConnectionRecv, hde, hmt, hpl, hb]
  · intro rest a hpl hpa
    simp [requestConnectionRecv, hde, hmt, hpl, hpa]
  · intro rest e hpl hpa
    simp [requestConnectionRecv, hde, hmt, hpl, hpa]
  · intro hpl
    simp [requestConnectionRecv, hde, hmt, hpl]

/-- Witness for C9: a ConnectionResponse with status 0 yields the peer
address, and one with an empty payload hits the panic case. -/
theorem C9_status_byte_read_witness :
    Packet.deserialize (Packet.serialize ⟨.ConnectionResponse, [0]⟩) =
      .ok ⟨.ConnectionResponse, [0]⟩ ∧
    requestConnectionRecv
      (some (.ok (Packet.serialize ⟨.ConnectionResponse, [0]⟩))) (.ok 9) =
      some (.ok 9) ∧
    requestConnectionRecv
      (some (.ok (Packet.serialize ⟨.ConnectionResponse, []⟩))) (.ok 9) =
      none := by
  refine ⟨by decide, ?_, ?_⟩
  · exact (C9_status_byte_read (Packet.serialize ⟨.ConnectionResponse, [0]⟩)
      ⟨.ConnectionResponse, [0]⟩ (.ok 9) (by decide) rfl).2.1 [] 9 rfl rfl
  · exact (C9_status_byte_read (Packet.serialize ⟨.ConnectionResponse, []⟩)
      ⟨.ConnectionResponse, []⟩ (.ok 9) (by decide) rfl).2.2.2 rfl

/-! ## C4 : registry connect -/

/-- C4: when desk_id is already registered, connect returns the existing
session info at once, performs no network work and leaves both maps
unchanged; and whenever connect returns failure the whole registry state
is unchanged, so no entry for desk_id remains in either map when none was
there before. -/
theorem C4_registry_connect (st : CoreState) (desk_id : String)
    (connectOutcome : Except String Unit) :
    (keyMember desk_id st.connections = true →
      CoreManager.connect st desk_id connectOutcome =
        (.ok ⟨desk_id, true, 1920, 1080⟩, st, false)) ∧
    (∀ e, (CoreManager.connect st desk_id connectOutcome).1 = .error e →
      (CoreManager.connect st desk_id connectOutcome).2.1 = st) ∧
    (∀ e, (CoreManager.connect st desk_id connectOutcome).1 = .error e →
      keyMember desk_id st.connections = false →
      keyMember desk_id
        (CoreManager.connect st desk_id connectOutcome).2.1.connections = false ∧
      keyMember desk_id
        (CoreManager.connect st desk_id connectOutcome).2.1.video_streams =
        keyMember desk_id st.video_streams) := by
  refine ⟨?_, ?_, ?_⟩
  · intro hmem
    simp [CoreManager.connect, hmem]
  · intro e herr
    by_cases hmem : keyMember desk_id st.connections
    · simp [CoreManager.connect, hmem] at herr
    · cases hoc : connectOutcome with
      | error e2 => simp [CoreManager.connect, hmem, hoc]
      | ok u =>
        simp [CoreManager.connect, hmem, hoc, RustDeskVideoStream.start] at herr
  · intro e herr hmem
    by_cases hmem2 : keyMember desk_id st.connections
    · rw [hmem2] at hmem
      exact absurd hmem (by decide)
    · cases hoc : connectOutcome with
      | error e2 => simp [CoreManager.connect, hmem2, hoc, hmem]
      | ok u =>
        simp [CoreManager.connect, hmem2, hoc, RustDeskVideoStream.start] at herr

/-- Witness for C4: with desk_id already present, connect is the identity
on the registry and reports no network work. -/
theorem C4_registry_connect_witness :
    keyMember "abc" ([("abc", ())] : List (String × Unit)) = true ∧
    CoreManager.connect ⟨[("abc", ())], []⟩ "abc" (.ok ()) =
      (.ok ⟨"abc", true, 1920, 1080⟩, ⟨[("abc", ())], []⟩, false) :=
  ⟨by decide,
    (C4_registry_connect ⟨[("abc", ())], []⟩ "abc" (.ok ())).1 (by decide)⟩

/-! ## C5 : which failures reach the Failed state -/

/-- C5 amended: failures of the directory connect, the peer lookup, the
local endpoint bind and the authenticated handshake set the connection
state to Failed before the error is surfaced; but a failure to read the
local address of the bound endpoint, or to clone the socket during session
construction, surfaces the error through the question-mark operator with
the state left at Connecting. -/
theorem C5_failed_transitions (o : PhaseOutcomes) :
    (∀ e, o.dirConnect = .error e →
      (RustDeskConnection.connect o).state = .Failed ∧
      (RustDeskConnection.connect o).result =
        .error ("连接 ID 服务器失败: " ++ e)) ∧
    (∀ e, o.dirConnect = .ok () → o.peerLookup = .error e →
      (RustDeskConnection.connect o).state = .Failed ∧
      (RustDeskConnection.connect o).result =
        .error ("未找到远程桌面: " ++ e)) ∧
    (∀ e peer, o.dirConnect = .ok () → o.peerLookup = .ok peer →
      o.bindLocal = .error e →
      (RustDeskConnection.connect o).state = .Failed ∧
      (RustDeskConnection.connect o).result =
        .error ("绑定本地端口失败: " ++ e)) ∧
    (∀ e peer sock a, o.dirConnect = .ok () → o.peerLookup = .ok peer →
      o.bindLocal = .ok sock → o.localAddr sock = .ok a →
      o.handshake sock peer = .error e →
      (RustDeskConnection.connect o).state = .Failed ∧
      (RustDeskConnection.connect o).result = .error ("握手失败: " ++ e)) ∧
    (∀ e peer sock, o.dirConnect = .ok () → o.peerLookup = .ok peer →
      o.bindLocal = .ok sock → o.localAddr sock = .error e →
      (RustDeskConnection.connect o).state = .Connecting ∧
      (RustDeskConnection.connect o).result =
        .error ("获取本地地址失败: " ++ e)) ∧
    (∀ e peer sock a, o.dirConnect = .ok () → o.peerLookup = .ok peer →
      o.bindLocal = .ok sock → o.localAddr sock = .ok a →
      o.handshake sock peer = .ok () → o.tryClone sock = .error e →
      (RustDeskConnection.connect o).state = .Connecting ∧
      (RustDeskConnection.connect o).result =
        .error ("克隆 socket 失败: " ++ e)) := by
  refine ⟨?_, ?_, ?_, ?_, ?_, ?_⟩
  · intro e h1
    simp [RustDeskConnection.connect, h1]
  · intro e h1 h2
    simp [RustDeskConnection.connect, h1, h2]
  · intro e peer h1 h2 h3
    simp [RustDeskConnection.connect, h1, h2, h3]
  · intro e peer sock a h1 h2 h3 h4 h5
    simp [RustDeskConnection.connect, h1, h2, h3, h4, h5]
  · intro e peer sock h1 h2 h3 h4
    simp [RustDeskConnection.connect, h1, h2, h3, h4]
  · intro e peer sock a h1 h2 h3 h4 h5 h6
    simp [RustDeskConnection.connect, h1, h2, h3, h4, h5, h6]

/-- C5 counterexample: with every phase succeeding except the socket clone
of session construction, connect surfaces the error while the state is
Connecting, not Failed, refuting the claim that every fatal phase failure
reaches Failed before the error is surfaced. -/
theorem C5_counterexample :
    (RustDeskConnection.connect oTryCloneFails).result =
      .error "克隆 socket 失败: boom" ∧
    (RustDeskConnection.connect oTryCloneFails).state = .Connecting ∧
    (RustDeskConnection.connect oTryCloneFails).state ≠ .Failed :=
  ⟨rfl, rfl, by decide⟩

/-- Witness for C5 amended: a directory-connect failure reaches Failed. -/
theorem C5_failed_transitions_witness :
    (PhaseOutcomes.mk (.error "down") (.ok 7) (.ok 3) (fun _ => .ok 5)
        (fun _ => .ok ()) (fun _ _ => .ok ()) (fun _ => .ok 4)).dirConnect =
      .error "down" ∧
    (RustDeskConnection.connect
      (PhaseOutcomes.mk (.error "down") (.ok 7) (.ok 3) (fun _ => .ok 5)
        (fun _ => .ok ()) (fun _ _ => .ok ()) (fun _ => .ok 4))).state =
      .Failed :=
  ⟨rfl,
    ((C5_failed_transitions
      (PhaseOutcomes.mk (.error "down") (.ok 7) (.ok 3) (fun _ => .ok 5)
        (fun _ => .ok ()) (fun _ _ => .ok ()) (fun _ => .ok 4))).1
      "down" rfl).1⟩

/-! ## C7 : hole-punch failures are advisory -/

/-- C7: the result and final state of connect do not depend on the
hole-punch outcome at all, and when the punch fails with every preceding
phase succeeding, the run records the failed punch and still proceeds to
the authenticated handshake on the endpoint bound in the preceding
phase. -/
theorem C7_punch_advisory (o : PhaseOutcomes) :
    (∀ p1 p2 : Nat → Except String Unit,
      (RustDeskConnection.connect { o with punch := p1 }).result =
        (RustDeskConnection.connect { o with punch := p2 }).result ∧
      (RustDeskConnection.connect { o with punch := p1 }).state =
        (RustDeskConnection.connect { o with punch := p2 }).state) ∧
    (∀ e peer sock a, o.dirConnect = .ok () → o.peerLookup = .ok peer →
      o.bindLocal = .ok sock → o.localAddr sock = .ok a →
      o.punch peer = .error e →
      ConnEvent.punch peer false ∈ (RustDeskConnection.connect o).events ∧
      ConnEvent.handshake sock peer ∈ (RustDeskConnection.connect o).events) := by
  constructor
  · intro p1 p2
    cases hd : o.dirConnect with
    | error e => simp [RustDeskConnection.connect, hd]
    | ok u =>
      cases u
      cases hp : o.peerLookup with
      | error e => simp [RustDeskConnection.connect, hd, hp]
      | ok peer =>
        cases hb : o.bindLocal with
        | error e => simp [RustDeskConnection.connect, hd, hp, hb]
        | ok sock =>
          cases hla : o.localAddr sock with
          | error e => simp [RustDeskConnection.connect, hd, hp, hb, hla]
          | ok a =>
            cases hh : o.handshake sock peer with
            | error e => simp [RustDeskConnection.connect, hd, hp, hb, hla, hh]
            | ok u2 =>
              cases u2
              cases htc : o.tryClone sock with
              | error e =>
                simp [RustDeskConnection.connect, hd, hp, hb, hla, hh, htc]
              | ok s2 =>
                simp [RustDeskConnection.connect, hd, hp, hb, hla, hh, htc]
  · intro e peer sock a h1 h2 h3 h4 h5
    cases hh : o.handshake sock peer with
    | error e2 =>
      simp [RustDeskConnection.connect, h1, h2, h3, h4, h5, hh]
    | ok u2 =>
      cases u2
      cases htc : o.tryClone sock with
      | error e2 =>
        simp [RustDeskConnection.connect, h1, h2, h3, h4, h5, hh, htc]
      | ok s2 =>
        simp [RustDeskConnection.connect, h1, h2, h3, h4, h5, hh, htc]

/-- Witness for C7: the concrete run where only the punch fails reaches
the handshake on the bound endpoint and connects. -/
theorem C7_punch_advisory_witness :
    oPunchFails.punch 7 = .error "punch" ∧
    ConnEvent.handshake 3 7 ∈ (RustDeskConnection.connect oPunchFails).events ∧
    ConnEvent.punch 7 false ∈ (RustDeskConnection.connect oPunchFails).events ∧
    (RustDeskConnection.connect oPunchFails).result = .ok () ∧
    (RustDeskConnection.connect oPunchFails).state = .Connected := by
  have h := (C7_punch_advisory oPunchFails).2 "punch" 7 3 5 rfl rfl rfl rfl rfl
  exact ⟨rfl, h.2, h.1, rfl, rfl⟩

/-! ## C8 : the frame buffer bound -/

theorem push_some (fb : FrameBuffer) (f : DecodedFrame)
    (h1 : 1 ≤ fb.max_size) (h2 : fb.frames.length ≤ fb.max_size) :
    ∃ fb2, fb.push f = some fb2 ∧ fb2.max_size = fb.max_size ∧
      fb2.frames.length ≤ fb.max_size ∧ fb2.get_latest = some f := by
  unfold FrameBuffer.push
  by_cases hfull : fb.max_size ≤ fb.frames.length
  · have hlen : fb.frames.length = fb.max_size := le_antisymm h2 hfull
    cases hfr : fb.frames with
    | nil => rw [hfr] at hlen; simp at hlen; omega
    | cons x r =>
      refine ⟨⟨r ++ [f], fb.max_size⟩, ?_, rfl, ?_, ?_⟩
      · rw [if_pos (show fb.max_size ≤ (x :: r).length from hfr ▸ hfull)]
      · rw [hfr] at hlen
        simp at hlen ⊢
        omega
      · simp [FrameBuffer.get_latest]
  · refine ⟨⟨fb.frames ++ [f], fb.max_size⟩, ?_, rfl, ?_, ?_⟩
    · rw [if_neg hfull]
    · simp
      omega
    · simp [FrameBuffer.get_latest]

theorem pushAll_sound (N : Nat) (hN : 1 ≤ N) :
    ∀ (fs : List DecodedFrame) (fb : FrameBuffer), fb.max_size = N →
      fb.frames.length ≤ N →
      ∃ fb2, fb.pushAll fs = some fb2 ∧ fb2.max_size = N ∧
        fb2.frames.length ≤ N ∧
        (∀ f, fs.getLast? = some f → fb2.get_latest = some f) ∧
        (fs = [] → fb2 = fb) := by
  intro fs
  induction fs with
  | nil =>
    intro fb hmax hlen
    exact ⟨fb, rfl, hmax, hlen, by simp, fun _ => rfl⟩
  | cons f rest ih =>
    intro fb hmax hlen
    obtain ⟨fb1, hpush, hmax1, hlen1, hlatest1⟩ :=
      push_some fb f (by omega) (by omega)
    obtain ⟨fb2, hall, hmax2, hlen2, hlast2, hnil2⟩ :=
      ih fb1 (by omega) (by omega)
    refine ⟨fb2, ?_, hmax2, hlen2, ?_, by simp⟩
    · unfold FrameBuffer.pushAll
      rw [hpush]
      exact hall
    · intro g hg
      cases hrest : rest with
      | nil =>
        rw [hrest] at hg hnil2
        simp at hg
        rw [hnil2 rfl, ← hg]
        exact hlatest1
      | cons r2 rs2 =>
        apply hlast2
        rw [hrest] at hg
        rw [← hg, hrest]
        simp [List.getLast?_cons_cons]

/-- C8 amended: for every capacity N of at least 1 and every push
sequence on a fresh buffer, no push panics, the length never exceeds N,
after any non-empty sequence get_latest is the last pushed frame without
removing it, and a push onto a full buffer drops the oldest frame and
appends the new one. -/
theorem C8_frame_buffer (N : Nat) (hN : 1 ≤ N) (fs : List DecodedFrame) :
    (∃ fb, (FrameBuffer.new N).pushAll fs = some fb ∧
      fb.max_size = N ∧ fb.frames.length ≤ N ∧
      (∀ f, fs.getLast? = some f → fb.get_latest = some f)) ∧
    (∀ (fb : FrameBuffer) (g : DecodedFrame), fb.max_size = N →
      fb.frames.length = N →
      fb.push g = some ⟨fb.frames.tail ++ [g], N⟩) := by
  constructor
  · obtain ⟨fb, h1, h2, h3, h4, _⟩ :=
      pushAll_sound N hN fs (FrameBuffer.new N) rfl (by simp [FrameBuffer.new])
    exact ⟨fb, h1, h2, h3, h4⟩
  · intro fb g hmax hlen
    unfold FrameBuffer.push
    cases hfr : fb.frames with
    | nil => rw [hfr] at hlen; simp at hlen; omega
    | cons x r =>
      rw [if_pos (show fb.max_size ≤ (x :: r).length by
        rw [hfr] at hlen; omega)]
      simp [hmax]

/-- C8 counterexample: a buffer created with capacity 0 is already full,
so push tries to remove index 0 of the empty vector, which is an
out-of-bounds panic rather than an eviction. -/
theorem C8_counterexample :
    FrameBuffer.push (FrameBuffer.new 0) sampleFrame = none ∧
    FrameBuffer.pushAll (FrameBuffer.new 0) [sampleFrame] = none :=
  ⟨rfl, rfl⟩

/-- Witness for C8 at capacity 2 and three pushed frames. -/
theorem C8_frame_buffer_witness :
    (1 : Nat) ≤ 2 ∧
    (∃ fb, (FrameBuffer.new 2).pushAll
        [sampleFrame, sampleFrame, sampleFrame] = some fb ∧
      fb.max_size = 2 ∧ fb.frames.length ≤ 2 ∧
      (∀ f, ([sampleFrame, sampleFrame, sampleFrame] : List DecodedFrame).getLast? = some f →
        fb.get_latest = some f)) :=
  ⟨by decide, (C8_frame_buffer 2 (by decide) [sampleFrame, sampleFrame, sampleFrame]).1⟩

/-! ## C10 : YUV420P conversion -/

theorem flat4_length (pix : List (Nat × Nat × Nat)) :
    (pix.flatMap (fun t => [t.1, t.2.1, t.2.2, 255])).length = 4 * pix.length := by
  induction pix with
  | nil => rfl
  | cons t rest ih => simp [ih]; omega

theorem flat4_alpha (pix : List (Nat × Nat × Nat)) :
    ∀ k, k < pix.length →
      (pix.flatMap (fun t => [t.1, t.2.1, t.2.2, 255])).get? (4 * k + 3) =
        some 255 := by
  induction pix with
  | nil => intro k hk; simp at hk
  | cons t rest ih =>
    intro k hk
    cases k with
    | zero => rfl
    | succ k2 =>
      have h4 : 4 * (k2 + 1) + 3 = 4 * k2 + 3 + 1 + 1 + 1 + 1 := by omega
      rw [h4]
      simp only [List.flatMap_cons, List.cons_append, List.nil_append,
        List.get?_cons_succ]
      exact ih k2 (by simpa using hk)

theorem yuvPixels_sound (rgbOf : Nat → Nat → Nat → Nat × Nat × Nat)
    (yP uP vP : List Nat) (w : Nat) :
    ∀ idxs : List (Nat × Nat),
      (∀ ij ∈ idxs,
        (ij.1 * w % 2 ^ 32 + ij.2) % 2 ^ 32 < yP.length ∧
        (ij.1 / 2 * w % 2 ^ 32 / 2 + ij.2 / 2) % 2 ^ 32 < uP.length ∧
        (ij.1 / 2 * w % 2 ^ 32 / 2 + ij.2 / 2) % 2 ^ 32 < vP.length) →
      ∃ pix : List (Nat × Nat × Nat),
        yuvPixels rgbOf yP uP vP w idxs =
          some (pix.flatMap (fun t => [t.1, t.2.1, t.2.2, 255])) ∧
        pix.length = idxs.length := by
  intro idxs
  induction idxs with
  | nil => intro _; exact ⟨[], rfl, rfl⟩
  | cons ij rest ih =>
    intro hbound
    obtain ⟨hy, hu, hv⟩ := hbound ij (by simp)
    obtain ⟨pix, hpix, hlen⟩ := ih (fun x hx => hbound x (by simp [hx]))
    obtain ⟨i, j⟩ := ij
    refine ⟨(rgbOf (yP.get ⟨_, hy⟩) (uP.get ⟨_, hu⟩) (vP.get ⟨_, hv⟩)) :: pix,
      ?_, by simp [hlen]⟩
    simp only [yuvPixels, List.get?_eq_get hy, List.get?_eq_get hu,
      List.get?_eq_get hv, hpix]
    simp

theorem mem_yuvIdxPairs (w h i j : Nat) :
    (i, j) ∈ yuvIdxPairs w h ↔ i < h ∧ j < w := by
  simp [yuvIdxPairs]

theorem yuvIdxPairs_length (w h : Nat) : (yuvIdxPairs w h).length = h * w := by
  induction h with
  | zero => simp [yuvIdxPairs]
  | succ h2 ih =>
    simp only [yuvIdxPairs, List.range_succ, List.flatMap_append] at ih ⊢
    simp [ih, Nat.succ_mul]

theorem yuv_idx_bounds (w h i j a b : Nat) (hw : w = 2 * a) (hh : h = 2 * b)
    (hwh : w * h < 2 ^ 32) (hi : i < h) (hj : j < w) :
    (i * w % 2 ^ 32 + j) % 2 ^ 32 < w * h ∧
    (i / 2 * w % 2 ^ 32 / 2 + j / 2) % 2 ^ 32 < w * h / 4 := by
  have hwpos : 0 < w := by omega
  have hiw : i * w < w * h := by
    calc i * w < h * w := Nat.mul_lt_mul_of_lt_of_le hi (le_refl w) hwpos
    _ = w * h := Nat.mul_comm h w
  have hiwj : i * w + j < w * h := by
    have h1 : (i + 1) * w = i * w + w := Nat.succ_mul i w
    have h2 : (i + 1) * w ≤ h * w := Nat.mul_le_mul_right w hi
    have h3 : h * w = w * h := Nat.mul_comm h w
    omega
  have hapos : 0 < a := by omega
  have hbpos : 0 < b := by omega
  have hq : i / 2 < b := by
    rw [Nat.div_lt_iff_lt_mul (by omega : (0:Nat) < 2)]
    omega
  have hs : j / 2 < a := by
    rw [Nat.div_lt_iff_lt_mul (by omega : (0:Nat) < 2)]
    omega
  have hqw : i / 2 * w ≤ i * w :=
    Nat.mul_le_mul_right w (Nat.div_le_self i 2)
  have hqw2 : i / 2 * w % 2 ^ 32 = i / 2 * w :=
    Nat.mod_eq_of_lt (by omega)
  have hdiv : i / 2 * w / 2 = i / 2 * a := by
    rw [hw, show i / 2 * (2 * a) = 2 * (i / 2 * a) by ring,
      Nat.mul_div_cancel_left _ (by omega : (0:Nat) < 2)]
  have huv : i / 2 * a + j / 2 < a * b := by
    have h1 : (i / 2 + 1) * a = i / 2 * a + a := by ring
    have h2 : (i / 2 + 1) * a ≤ b * a := Nat.mul_le_mul_right a hq
    have h3 : b * a = a * b := Nat.mul_comm b a
    omega
  have hq4 : w * h / 4 = a * b := by
    rw [hw, hh, show 2 * a * (2 * b) = 4 * (a * b) by ring,
      Nat.mul_div_cancel_left _ (by omega : (0:Nat) < 4)]
  have hab : a * b ≤ w * h := by
    rw [hw, hh]
    calc a * b ≤ 4 * (a * b) := by omega
    _ = 2 * a * (2 * b) := by ring
  constructor
  · rw [Nat.mod_eq_of_lt (by omega : i * w < 2 ^ 32),
      Nat.mod_eq_of_lt (by omega : i * w + j < 2 ^ 32)]
    exact hiwj
  · rw [hqw2, hdiv, Nat.mod_eq_of_lt (by omega : i / 2 * a + j / 2 < 2 ^ 32),
      hq4]
    exact huv

/-- C10 amended: for a YUV420P frame with even width and even height (the
u32 pixel count below 2^32), to_rgba returns the InvalidFrame error when
the data length is under the plane total, and otherwise returns Ok with a
buffer of exactly 4 times width times height bytes whose every fourth
byte is the alpha value 255, every plane index during conversion being in
bounds. -/
theorem C10_to_rgba_yuv (rgbOf : Nat → Nat → Nat → Nat × Nat × Nat)
    (w h ts : Nat) (data : List Nat) (hwh : w * h < 2 ^ 32)
    (ha : 2 ∣ w) (hb : 2 ∣ h) :
    (data.length < w * h + 2 * (w * h / 4) →
      DecodedFrame.to_rgba rgbOf ⟨w, h, data, .YUV420P, ts⟩ =
        some (.error (.InvalidFrame "Invalid YUV420P data"))) ∧
    (w * h + 2 * (w * h / 4) ≤ data.length →
      ∃ out, DecodedFrame.to_rgba rgbOf ⟨w, h, data, .YUV420P, ts⟩ =
        some (.ok out) ∧ out.length = 4 * (w * h) ∧
        ∀ k, k < w * h → out.get? (4 * k + 3) = some 255) := by
  obtain ⟨a, hwa⟩ := ha
  obtain ⟨b, hhb⟩ := hb
  have hmod : w * h % 2 ^ 32 = w * h := Nat.mod_eq_of_lt hwh
  constructor
  · intro hlt
    unfold DecodedFrame.to_rgba DecodedFrame.yuv420p_to_rgba
    simp only [hmod]
    rw [if_pos (by omega)]
  · intro hge
    have hyP : (data.take (w * h)).length = w * h := by
      rw [List.length_take]
      omega
    have huP : ((data.drop (w * h)).take (w * h / 4)).length = w * h / 4 := by
      rw [List.length_take, List.length_drop]
      omega
    have hvP : ((data.drop (w * h + w * h / 4)).take (w * h / 4)).length =
        w * h / 4 := by
      rw [List.length_take, List.length_drop]
      omega
    obtain ⟨pix, hpix, hplen⟩ := yuvPixels_sound rgbOf (data.take (w * h))
      ((data.drop (w * h)).take (w * h / 4))
      ((data.drop (w * h + w * h / 4)).take (w * h / 4)) w (yuvIdxPairs w h)
      (by
        intro ij hij
        obtain ⟨i, j⟩ := ij
        rw [mem_yuvIdxPairs] at hij
        have hbd := yuv_idx_bounds w h i j a b hwa hhb hwh hij.1 hij.2
        rw [hyP, huP, hvP]
        exact ⟨hbd.1, hbd.2, hbd.2⟩)
    refine ⟨pix.flatMap (fun t => [t.1, t.2.1, t.2.2, 255]), ?_, ?_, ?_⟩
    · unfold DecodedFrame.to_rgba DecodedFrame.yuv420p_to_rgba
      simp only [hmod]
      rw [if_neg (by omega)]
      rw [hpix]
    · rw [flat4_length, hplen, yuvIdxPairs_length, Nat.mul_comm h w]
    · intro k hk
      apply flat4_alpha
      rw [hplen, yuvIdxPairs_length, Nat.mul_comm h w]
      exact hk

/-- C10 counterexample: a 1 by 1 YUV420P frame with one data byte passes
the length guard (1 is not below 1 + 2 times 0) yet the U plane is empty,
so the first chroma lookup is out of bounds and the conversion panics
instead of returning Ok. -/
theorem C10_counterexample :
    (1 * 1 + 2 * (1 * 1 / 4) : Nat) ≤ ([0] : List Nat).length ∧
    DecodedFrame.to_rgba rgbSample ⟨1, 1, [0], .YUV420P, 0⟩ = none :=
  ⟨by decide, rfl⟩

/-- Witness for C10 at a 2 by 2 frame with exactly the six plane bytes. -/
theorem C10_to_rgba_yuv_witness :
    (2 * 2 : Nat) < 2 ^ 32 ∧ (2 ∣ 2) ∧
    (2 * 2 + 2 * (2 * 2 / 4) : Nat) ≤
      ([16, 17, 18, 19, 128, 129] : List Nat).length ∧
    (∃ out, DecodedFrame.to_rgba rgbSample
        ⟨2, 2, [16, 17, 18, 19, 128, 129], .YUV420P, 0⟩ =
        some (.ok out) ∧ out.length = 4 * (2 * 2) ∧
      ∀ k, k < 2 * 2 → out.get? (4 * k + 3) = some 255) :=
  ⟨by decide, by decide, by decide,
    (C10_to_rgba_yuv rgbSample 2 2 0 [16, 17, 18, 19, 128, 129]
      (by decide) (by decide) (by decide)).2 (by decide)⟩
